import Mathlib

/-!
# YAxisOverlayView: depth chart and crosshair label

A shallow embedding of `src/view/YAxisOverlayView.js`.

* JavaScript numbers are modelled by `JSNum`: an exact rational, or one of the
  three non-finite values.  Rounding is not modelled and the two zeros are
  identified (every zero is `+0`).
* The canvas context `this._ctx` is modelled by the list of calls issued on it,
  in order (`Cmd`).  A method returns the calls it issued together with its
  outcome, so that the calls made before a thrown error stay observable.
* Collaborators that live outside this file (the axis, the store, the text
  measuring helpers) are parameters; the formatting helpers are left uninterpreted, a
  label text being the term that names the call which produced it (`Text`).
* The definitions named after a method of the class are its embedding; `specX`,
  `specLevelPoints` and `specStaircase` follow the wording of the specification; `stairs`,
  `finalX` and `levelPointsFrom` are auxiliary forms used by the proofs.
-/

namespace YAxisOverlayView

/-! ## Numbers -/

/-- A JavaScript number: a finite value or `Infinity`, `-Infinity`, `NaN`. -/
inductive JSNum where
  | fin (q : ℚ)
  | posInf
  | negInf
  | nan
  deriving DecidableEq

namespace JSNum

instance {n : Nat} : OfNat JSNum n := ⟨fin (OfNat.ofNat n)⟩

/-- The predicate `Number.isFinite`. -/
def isFinite : JSNum → Bool
  | fin _ => true
  | _ => false

/-- Unary minus. -/
def neg : JSNum → JSNum
  | fin a => fin (-a)
  | posInf => negInf
  | negInf => posInf
  | nan => nan

/-- The operator `+` on numbers. -/
def add : JSNum → JSNum → JSNum
  | fin a, fin b => fin (a + b)
  | nan, _ => nan
  | _, nan => nan
  | posInf, negInf => nan
  | negInf, posInf => nan
  | posInf, _ => posInf
  | negInf, _ => negInf
  | _, posInf => posInf
  | _, negInf => negInf

/-- The operator `-` on numbers. -/
def sub (a b : JSNum) : JSNum := add a (neg b)

/-- An infinity of the given sign (`true` is positive). -/
def inf (positive : Bool) : JSNum := if positive then posInf else negInf

/-- The product of an infinity of sign `s` with the finite value `a`. -/
def infMul (s : Bool) (a : ℚ) : JSNum :=
  if a = 0 then nan else inf (s == decide (0 < a))

/-- The operator `*` on numbers. -/
def mul : JSNum → JSNum → JSNum
  | fin a, fin b => fin (a * b)
  | nan, _ => nan
  | _, nan => nan
  | posInf, fin b => infMul true b
  | negInf, fin b => infMul false b
  | fin a, posInf => infMul true a
  | fin a, negInf => infMul false a
  | posInf, posInf => posInf
  | negInf, negInf => posInf
  | posInf, negInf => negInf
  | negInf, posInf => negInf

/-- The operator `/` on numbers; a zero divisor is `+0`. -/
def div : JSNum → JSNum → JSNum
  | fin a, fin b =>
      if b = 0 then (if a = 0 then nan else inf (decide (0 < a))) else fin (a / b)
  | nan, _ => nan
  | _, nan => nan
  | fin _, posInf => fin 0
  | fin _, negInf => fin 0
  | posInf, fin b => inf (decide (0 ≤ b))
  | negInf, fin b => inf (decide (b < 0))
  | posInf, posInf => nan
  | posInf, negInf => nan
  | negInf, posInf => nan
  | negInf, negInf => nan

instance : Add JSNum := ⟨add⟩
instance : Sub JSNum := ⟨sub⟩
instance : Mul JSNum := ⟨mul⟩
instance : Div JSNum := ⟨div⟩

end JSNum

/-! ## Values, errors and canvas calls -/

/-- The function objects that this file creates. -/
inductive Closure where
  /-- The arrow function at `initialCoordinates.asksChart.y`. -/
  | asksChartY
  deriving DecidableEq

/-- A value handed to a canvas method: a number or a function object. -/
inductive JSVal where
  | num (n : JSNum)
  | func (f : Closure)
  deriving DecidableEq

/-- The conversion `ToNumber` that the canvas applies to an argument: a function object
converts to `NaN`. -/
def JSVal.toNumber : JSVal → JSNum
  | JSVal.num n => n
  | JSVal.func _ => JSNum.nan

/-- A thrown error. -/
inductive JSError where
  | typeError
  deriving DecidableEq

/-- The text of the crosshair label, as the call that formats it. -/
inductive Text where
  /-- The template literal built from `x.toFixed(2)` and a percent sign. -/
  | percent (x : JSNum)
  /-- The call `formatPrecision(value, precision)`. -/
  | formatPrecision (value : JSNum) (precision : Nat)
  /-- The call `formatBigNumber(text)`. -/
  | formatBigNumber (text : Text)
  deriving DecidableEq

/-- A tag object of the tag store; only its `drawText` method is used. -/
structure Tag where
  id : Nat
  deriving DecidableEq

/-- One call on the canvas context, or on a renderer that receives the context. -/
inductive Cmd where
  | beginPath
  | setStrokeStyle (color : String)
  | setLineWidth (w : JSNum)
  | moveTo (x y : JSVal)
  | lineTo (x y : JSNum)
  | stroke
  | closePath
  | createLinearGradient (x0 y0 x1 y1 : JSNum)
  | addColorStop (offset : JSNum) (color : String)
  | setFillStyleGradient
  | fill
  | setTextBaseline (v : String)
  | tagDrawText (tag : Tag)
  | renderStrokeFillRoundRect (backgroundColor borderColor : String)
      (borderSize x y width height borderRadius : JSNum)
  | renderText (color : String) (x y : JSNum) (text : Text)
  deriving DecidableEq

/-- The outcome of a method: the canvas calls it issued, in order, and whether it returned
(with which value) or threw. -/
structure Run (α : Type) where
  cmds : List Cmd
  result : Except JSError α

/-! ## Collaborators -/

/-- The display mode of the axis. -/
inductive YAxisType where
  | normal
  | percentage
  | log
  deriving DecidableEq

/-- The price axis `this._yAxis`. -/
structure YAxis where
  convertToPixel : JSNum → JSNum
  convertFromPixel : JSNum → JSNum
  width : JSNum
  yAxisType : YAxisType
  isCandleYAxis : Bool
  isFromYAxisZero : Bool

/-- One row of the order book. -/
structure PriceLevel where
  price : JSNum
  count : JSNum
  deriving DecidableEq

/-- One side of the order book. -/
structure OrderBookSide where
  items : List PriceLevel
  totalCount : JSNum

/-- The order-book snapshot; either side may be absent. -/
structure AsksBidsData where
  asks : Option OrderBookSide
  bids : Option OrderBookSide

/-- The style of one side of the depth chart. -/
structure ChartStyles where
  lineColor : String
  colorLeft : String
  colorRight : String

/-- The styles under `styleOptions().yAxis` that the depth chart reads. -/
structure YAxisStyles where
  asksChart : ChartStyles
  bidsChart : ChartStyles

/-- The styles under `crosshair.horizontal.text`. -/
structure TextOptions where
  show_ : Bool
  color : String
  size : JSNum
  paddingLeft : JSNum
  paddingTop : JSNum
  borderSize : JSNum
  borderColor : String
  borderRadius : JSNum
  backgroundColor : String

/-- The styles under `crosshair.horizontal`. -/
structure CrosshairHorizontalOptions where
  show_ : Bool
  text : TextOptions

/-- The styles under `crosshair`. -/
structure CrosshairOptions where
  show_ : Bool
  horizontal : CrosshairHorizontalOptions

/-- The style tree `styleOptions()`. -/
structure StyleOptions where
  yAxis : YAxisStyles
  crosshair : CrosshairOptions

/-- The crosshair state; `paneId` is absent while no pane is under the pointer. -/
structure Crosshair where
  paneId : Option String
  y : JSNum

/-- One entry of the data list. -/
structure KLineData where
  close : JSNum

/-- One entry of the visible data list. -/
structure VisibleData where
  data : Option KLineData

/-- A technical-indicator instance; `precision` is a number of fractional digits. -/
structure TechnicalIndicator where
  precision : Nat
  shouldFormatBigNumber : Bool

/-- The store `this._chartStore`, as read during one pass. -/
structure ChartStore where
  getAsksBidsData : AsksBidsData
  styleOptions : StyleOptions
  tagStore : String → Option (List Tag)
  crosshairStore : Crosshair
  dataList : List KLineData
  visibleDataList : List VisibleData
  technicalIndicatorStore : String → List TechnicalIndicator
  pricePrecision : Nat

/-- The view: its fields and the imported text-measuring helpers. -/
structure View where
  _chartStore : ChartStore
  _yAxis : YAxis
  _paneId : String
  _width : JSNum
  getTextRectWidth : Text → TextOptions → JSNum
  getTextRectHeight : TextOptions → JSNum

/-- An anchor point of `initialCoordinates`. -/
structure Coordinates where
  x : JSVal
  y : JSVal

/-- The shape of the field `initialCoordinates`. -/
structure InitialCoordinates where
  asksChart : Coordinates
  bidsChart : Coordinates

/-! ## The methods of the view -/

/-- The field `initialCoordinates`.  The `y` of `asksChart` is an arrow function, stored as
a function object; the `y` of `bidsChart` is the number 0. -/
def initialCoordinates : InitialCoordinates where
  asksChart := ⟨JSVal.num 0, JSVal.func Closure.asksChartY⟩
  bidsChart := ⟨JSVal.num 0, JSVal.num 0⟩

/-- Calling a number as a function: a number is not callable, the call throws. -/
def JSNum.call (_ : JSNum) : Except JSError JSVal := Except.error JSError.typeError

/-- Calling a function object of this file.  The body of `asksChartY` is
`(this._yAxis.convertToPixel(0))()`: it calls the number that `convertToPixel` returns. -/
def Closure.call (yAxis : YAxis) : Closure → Except JSError JSVal
  | Closure.asksChartY => JSNum.call (yAxis.convertToPixel 0)

/-- The method `_convertXToPixels`. -/
def _convertXToPixels (self : View) (x totalCount : JSNum) : JSNum :=
  let fullWidth := self._yAxis.width
  (fullWidth / totalCount) * x

/-- The body of the `forEach` callback of `_drawLine`: the state is the calls issued so far
and `currentX`. -/
def _drawLine.step (self : View) (orders : List PriceLevel) (totalCount : JSNum)
    (acc : List Cmd × JSNum) (entry : Nat × PriceLevel) : List Cmd × JSNum :=
  let index := entry.1
  let order := entry.2
  let currentX := acc.2 + _convertXToPixels self order.count totalCount
  let cmds := acc.1 ++ [Cmd.lineTo currentX (self._yAxis.convertToPixel order.price)]
  match orders[index + 1]? with
  | some next => (cmds ++ [Cmd.lineTo currentX (self._yAxis.convertToPixel next.price)], currentX)
  | none => (cmds, currentX)

/-- The method `_drawLine`: the calls it issues and the `currentX` it returns. -/
def _drawLine (self : View) (orders : List PriceLevel) (totalCount : JSNum) :
    List Cmd × JSNum :=
  orders.enum.foldl (_drawLine.step self orders totalCount) ([], 0)

/-- Sequencing of two methods: the second runs only if the first returned. -/
def Run.andThen (a b : Run Unit) : Run Unit :=
  match a.result with
  | Except.ok _ => ⟨a.cmds ++ b.cmds, b.result⟩
  | Except.error e => ⟨a.cmds, Except.error e⟩

/-- A method that issues the given calls and returns. -/
def Run.emit (cmds : List Cmd) : Run Unit := ⟨cmds, Except.ok ()⟩

/-- The method `_drawOrderLine`.  Reading `orders[0].price` of an empty sequence throws. -/
def _drawOrderLine (self : View) (orders : List PriceLevel) (totalCount : JSNum)
    (chartType : String) (styles : ChartStyles) : Run Unit :=
  let initialCoords :=
    if chartType = "asks" then initialCoordinates.asksChart else initialCoordinates.bidsChart
  let head := [Cmd.beginPath, Cmd.setStrokeStyle styles.lineColor, Cmd.setLineWidth 3,
    Cmd.moveTo initialCoords.x initialCoords.y]
  match orders[0]? with
  | none => ⟨head, Except.error JSError.typeError⟩
  | some first =>
    let line := _drawLine self orders totalCount
    Run.emit (head ++ [Cmd.lineTo 0 (self._yAxis.convertToPixel first.price)] ++ line.1 ++
      [Cmd.stroke, Cmd.closePath])

/-- The method `_drawOrdersArea`. -/
def _drawOrdersArea (self : View) (orders : List PriceLevel) (totalCount : JSNum)
    (chartType : String) (styles : ChartStyles) : Run Unit :=
  let initialCoords :=
    if chartType = "asks" then initialCoordinates.asksChart else initialCoordinates.bidsChart
  let head := [Cmd.beginPath, Cmd.moveTo initialCoords.x initialCoords.y]
  match orders[0]? with
  | none => ⟨head, Except.error JSError.typeError⟩
  | some first =>
    let line := _drawLine self orders totalCount
    let currentX := line.2
    Run.emit (head ++ [Cmd.lineTo 0 (self._yAxis.convertToPixel first.price)] ++ line.1 ++
      [Cmd.lineTo currentX (if chartType = "asks" then self._yAxis.convertToPixel 0 else 0),
       Cmd.closePath,
       Cmd.createLinearGradient 500 0 0 0,
       Cmd.addColorStop 0 styles.colorRight,
       Cmd.addColorStop 1 styles.colorLeft,
       Cmd.setFillStyleGradient,
       Cmd.fill])

/-- The method `_drawOrderChart`. -/
def _drawOrderChart (self : View) (items : List PriceLevel) (totalCount : JSNum)
    (chartType : String) (styles : ChartStyles) : Run Unit :=
  (_drawOrderLine self items totalCount chartType styles).andThen
    (_drawOrdersArea self items totalCount chartType styles)

/-- The method `_drawTag`. -/
def _drawTag (self : View) : List Cmd :=
  match self._chartStore.tagStore self._paneId with
  | some tags => tags.map Cmd.tagDrawText
  | none => []

/-- The body of the `forEach` callback over the indicators in `_drawCrossHairLabel`: the
state is `precision` and `shouldFormatBigNumber`. -/
def _drawCrossHairLabel.step (acc : Nat × Bool) (tech : TechnicalIndicator) : Nat × Bool :=
  (max tech.precision acc.1, if !acc.2 then tech.shouldFormatBigNumber else acc.2)

/-- The local `text` of `_drawCrossHairLabel` (the formatting branch of the method), for the
domain value `value` under the crosshair. -/
def _drawCrossHairLabel.text (self : View) (value : JSNum) : Text :=
  if self._yAxis.yAxisType = YAxisType.percentage then
    let close : JSNum :=
      match (self._chartStore.visibleDataList[0]? : Option VisibleData) with
      | some (VisibleData.mk (some fromData)) => fromData.close
      | _ => JSNum.nan
    Text.percent ((value - close) / close * 100)
  else
    let techs := self._chartStore.technicalIndicatorStore self._paneId
    let state : Nat × Bool :=
      if self._yAxis.isCandleYAxis then (self._chartStore.pricePrecision, false)
      else techs.foldl _drawCrossHairLabel.step (0, false)
    let text := Text.formatPrecision value state.1
    if state.2 then Text.formatBigNumber text else text

/-- The method `_drawCrossHairLabel`. -/
def _drawCrossHairLabel (self : View) : List Cmd :=
  let crosshair := self._chartStore.crosshairStore
  if crosshair.paneId ≠ some self._paneId ∨ self._chartStore.dataList.length = 0 then []
  else
    let styleOptions := self._chartStore.styleOptions
    let crosshairOptions := styleOptions.crosshair
    let crosshairHorizontalOptions := crosshairOptions.horizontal
    let crosshairHorizontalTextOptions := crosshairHorizontalOptions.text
    if !crosshairOptions.show_ || !crosshairHorizontalOptions.show_ ||
        !crosshairHorizontalTextOptions.show_ then []
    else
      let value := self._yAxis.convertFromPixel crosshair.y
      let text := _drawCrossHairLabel.text self value
      let borderSize := crosshairHorizontalTextOptions.borderSize
      let rectWidth := self.getTextRectWidth text crosshairHorizontalTextOptions
      let rectHeight := self.getTextRectHeight crosshairHorizontalTextOptions
      let rectStartX : JSNum := if self._yAxis.isFromYAxisZero then 0 else self._width - rectWidth
      let rectY := crosshair.y - borderSize - crosshairHorizontalTextOptions.paddingTop -
        crosshairHorizontalTextOptions.size / 2
      [Cmd.renderStrokeFillRoundRect
         crosshairHorizontalTextOptions.backgroundColor
         crosshairHorizontalTextOptions.borderColor
         borderSize rectStartX rectY rectWidth rectHeight
         crosshairHorizontalTextOptions.borderRadius,
       Cmd.renderText
         crosshairHorizontalTextOptions.color
         (rectStartX + borderSize + crosshairHorizontalTextOptions.paddingLeft)
         crosshair.y
         text]

/-- The method `_draw`: one render pass. -/
def _draw (self : View) : Run Unit :=
  let asksBidsData := self._chartStore.getAsksBidsData
  let chart : Run Unit :=
    match asksBidsData.asks, asksBidsData.bids with
    | some asks, some bids =>
      let styles := self._chartStore.styleOptions.yAxis
      (_drawOrderChart self asks.items asks.totalCount "asks" styles.asksChart).andThen
        (_drawOrderChart self bids.items bids.totalCount "bids" styles.bidsChart)
    | _, _ => Run.emit []
  chart.andThen
    (Run.emit ([Cmd.setTextBaseline "middle"] ++ _drawTag self ++ _drawCrossHairLabel self))

/-! ## Vocabulary of the statements -/

/-- The calls that add a point to the current path. -/
def Cmd.isPoint : Cmd → Bool
  | Cmd.moveTo _ _ => true
  | Cmd.lineTo _ _ => true
  | _ => false

/-- The calls that the depth chart makes on the context: everything except the text
baseline, the tags and the two renderers of the crosshair label. -/
def Cmd.isDepthChart : Cmd → Bool
  | Cmd.setTextBaseline _ => false
  | Cmd.tagDrawText _ => false
  | Cmd.renderStrokeFillRoundRect _ _ _ _ _ _ _ _ => false
  | Cmd.renderText _ _ _ _ => false
  | _ => true

/-- The points of a path, in order. -/
def pathPoints (cmds : List Cmd) : List Cmd := cmds.filter Cmd.isPoint

/-- The cumulative x-pixel of level `i` as the specification words it: the sum over
`j ≤ i` of `count j * (axisWidth / totalCount)`. -/
def specX (axisWidth totalCount : ℚ) (counts : List ℚ) (i : Nat) : ℚ :=
  ((counts.take (i + 1)).map (fun c => c * (axisWidth / totalCount))).sum

/-- The points of level `i` as the specification words them: `(X i, toPixel (price i))`,
followed, when there is a next level, by `(X i, toPixel (price (i + 1)))`. -/
def specLevelPoints (toPixel : JSNum → JSNum) (axisWidth totalCount : ℚ)
    (orders : List PriceLevel) (counts : List ℚ) (i : Nat) : List Cmd :=
  match orders[i]? with
  | none => []
  | some order =>
    Cmd.lineTo (JSNum.fin (specX axisWidth totalCount counts i)) (toPixel order.price) ::
      (match orders[i + 1]? with
       | some next =>
         [Cmd.lineTo (JSNum.fin (specX axisWidth totalCount counts i)) (toPixel next.price)]
       | none => [])

/-- The staircase as the specification words it: the points of the levels, in input order. -/
def specStaircase (toPixel : JSNum → JSNum) (axisWidth totalCount : ℚ)
    (orders : List PriceLevel) (counts : List ℚ) : List Cmd :=
  (List.range orders.length).flatMap (specLevelPoints toPixel axisWidth totalCount orders counts)

/-- The staircase of `_drawLine` by recursion on the levels still to draw, from the
current `currentX`. -/
def stairs (self : View) (totalCount : JSNum) : JSNum → List PriceLevel → List Cmd
  | _, [] => []
  | x, order :: rest =>
    Cmd.lineTo (x + _convertXToPixels self order.count totalCount)
        (self._yAxis.convertToPixel order.price) ::
      ((match rest with
        | [] => []
        | next :: _ =>
          [Cmd.lineTo (x + _convertXToPixels self order.count totalCount)
            (self._yAxis.convertToPixel next.price)]) ++
       stairs self totalCount (x + _convertXToPixels self order.count totalCount) rest)

/-- The running sum of `_drawLine` by recursion on the levels still to draw. -/
def finalX (self : View) (totalCount : JSNum) : JSNum → List PriceLevel → JSNum
  | x, [] => x
  | x, order :: rest =>
    finalX self totalCount (x + _convertXToPixels self order.count totalCount) rest

/-- The points of level `i` when the running sum starts from `x0` instead of 0. -/
def levelPointsFrom (toPixel : JSNum → JSNum) (axisWidth totalCount x0 : ℚ)
    (orders : List PriceLevel) (counts : List ℚ) (i : Nat) : List Cmd :=
  match orders[i]? with
  | none => []
  | some order =>
    Cmd.lineTo (JSNum.fin (x0 + specX axisWidth totalCount counts i)) (toPixel order.price) ::
      (match orders[i + 1]? with
       | some next =>
         [Cmd.lineTo (JSNum.fin (x0 + specX axisWidth totalCount counts i))
           (toPixel next.price)]
       | none => [])

/-! ## Sample inputs -/

/-- A linear axis of width 100 that maps price `p` to pixel `200 - p`. -/
def sampleAxis : YAxis where
  convertToPixel := fun p => 200 - p
  convertFromPixel := fun y => 200 - y
  width := 100
  yAxisType := YAxisType.normal
  isCandleYAxis := false
  isFromYAxisZero := false

/-- Sample styles of the label text. -/
def sampleTextOptions : TextOptions where
  show_ := true
  color := "#fff"
  size := 12
  paddingLeft := 2
  paddingTop := 2
  borderSize := 1
  borderColor := "#000"
  borderRadius := 2
  backgroundColor := "#333"

/-- Sample style of the asks side. -/
def sampleAsksStyles : ChartStyles := ⟨"#f00", "#000", "#fff"⟩

/-- Sample style of the bids side. -/
def sampleBidsStyles : ChartStyles := ⟨"#0f0", "#111", "#eee"⟩

/-- Sample style tree. -/
def sampleStyleOptions : StyleOptions :=
  ⟨⟨sampleAsksStyles, sampleBidsStyles⟩, ⟨true, ⟨true, sampleTextOptions⟩⟩⟩

/-- A store with the given order book: the crosshair is on pane `p1`, the data list has one
entry, the visible data list is empty, and two indicators are registered on `p1`. -/
def sampleStore (book : AsksBidsData) : ChartStore where
  getAsksBidsData := book
  styleOptions := sampleStyleOptions
  tagStore := fun _ => some [⟨7⟩]
  crosshairStore := ⟨some "p1", 50⟩
  dataList := [⟨100⟩]
  visibleDataList := []
  technicalIndicatorStore := fun _ => [⟨2, false⟩, ⟨4, false⟩]
  pricePrecision := 3

/-- A view on pane `p1` of width 100; every label text measures 100 wide and 18 high. -/
def sampleView (book : AsksBidsData) : View where
  _chartStore := sampleStore book
  _yAxis := sampleAxis
  _paneId := "p1"
  _width := 100
  getTextRectWidth := fun _ _ => 100
  getTextRectHeight := fun _ => 18

/-- The single ask level of the scenario. -/
def sampleAsks : OrderBookSide := ⟨[⟨105, 10⟩], 10⟩

/-- Two bid levels. -/
def sampleBids : OrderBookSide := ⟨[⟨95, 10⟩, ⟨94, 30⟩], 40⟩

/-! ## Lemmas on numbers -/

namespace JSNum

@[simp] theorem ofNat_eq_fin {n : Nat} : (@OfNat.ofNat JSNum n _) = fin (@OfNat.ofNat ℚ n _) :=
  rfl

@[simp] theorem fin_add_fin (a b : ℚ) : fin a + fin b = fin (a + b) := rfl

@[simp] theorem fin_sub_fin (a b : ℚ) : fin a - fin b = fin (a - b) := by
  show add (fin a) (neg (fin b)) = fin (a - b)
  simp [add, neg, sub_eq_add_neg]

@[simp] theorem fin_mul_fin (a b : ℚ) : fin a * fin b = fin (a * b) := rfl

theorem fin_div_fin (a : ℚ) {b : ℚ} (hb : b ≠ 0) : fin a / fin b = fin (a / b) := by
  show div (fin a) (fin b) = fin (a / b)
  simp [div, hb]

theorem isFinite_div_zero (a : JSNum) : (a / fin 0).isFinite = false := by
  show (div a (fin 0)).isFinite = false
  cases a <;> simp [div, inf, isFinite]
  all_goals split_ifs <;> simp [isFinite]

theorem isFinite_mul_left {a : JSNum} (b : JSNum) (ha : a.isFinite = false) :
    (a * b).isFinite = false := by
  show (mul a b).isFinite = false
  cases a <;> cases b <;> simp_all [mul, infMul, inf, isFinite] <;> split_ifs <;> simp [isFinite]

theorem isFinite_add_right (a : JSNum) {b : JSNum} (hb : b.isFinite = false) :
    (a + b).isFinite = false := by
  show (add a b).isFinite = false
  cases a <;> cases b <;> simp_all [add, isFinite]

end JSNum

/-! ## The loop of `_drawLine` -/

theorem getElem?_append_cons_succ {α : Type} (pre : List α) (a : α) (rest : List α) :
    (pre ++ a :: rest)[pre.length + 1]? = rest[0]? := by
  rw [List.getElem?_append_right (by omega)]
  simp

theorem drawLine_fold (self : View) (totalCount : JSNum) :
    ∀ (rest pre : List PriceLevel) (acc : List Cmd × JSNum),
      (rest.enumFrom pre.length).foldl (_drawLine.step self (pre ++ rest) totalCount) acc =
        (acc.1 ++ stairs self totalCount acc.2 rest, finalX self totalCount acc.2 rest) := by
  intro rest
  induction rest with
  | nil => intro pre acc; simp [stairs, finalX]
  | cons order rest ih =>
    intro pre acc
    have hlen : (pre ++ [order]).length = pre.length + 1 := by simp
    have hstep := ih (pre ++ [order])
    rw [hlen] at hstep
    simp only [List.append_assoc, List.singleton_append] at hstep
    simp only [List.enumFrom_cons, List.foldl_cons]
    rw [hstep]
    have hnext := getElem?_append_cons_succ pre order rest
    cases rest with
    | nil =>
      simp only [List.getElem?_nil] at hnext
      simp [_drawLine.step, stairs, finalX, hnext]
    | cons next rest =>
      simp only [List.getElem?_cons_zero] at hnext
      simp [_drawLine.step, stairs, finalX, hnext]

theorem drawLine_eq (self : View) (orders : List PriceLevel) (totalCount : JSNum) :
    _drawLine self orders totalCount =
      (stairs self totalCount 0 orders, finalX self totalCount 0 orders) := by
  have h := drawLine_fold self totalCount orders [] ([], 0)
  simpa [_drawLine, List.enum] using h

theorem finalX_eq_foldl (self : View) (totalCount : JSNum) :
    ∀ (orders : List PriceLevel) (x : JSNum),
      finalX self totalCount x orders =
        orders.foldl (fun cur order => cur + _convertXToPixels self order.count totalCount) x := by
  intro orders
  induction orders with
  | nil => intro x; rfl
  | cons order rest ih => intro x; simp [finalX, ih]

theorem stairs_length (self : View) (totalCount : JSNum) :
    ∀ (orders : List PriceLevel) (x : JSNum),
      (stairs self totalCount x orders).length = 2 * orders.length - 1 := by
  intro orders
  induction orders with
  | nil => intro x; rfl
  | cons order rest ih =>
    intro x
    cases rest with
    | nil => simp [stairs]
    | cons next rest =>
      have h := ih (x + _convertXToPixels self order.count totalCount)
      simp only [stairs, List.length_cons, List.length_append, List.length_nil] at h ⊢
      omega

/-! ## The loop on finite data -/

theorem convertXToPixels_fin (self : View) {w t : ℚ} (c : ℚ)
    (hw : self._yAxis.width = JSNum.fin w) (ht : t ≠ 0) :
    _convertXToPixels self (JSNum.fin c) (JSNum.fin t) = JSNum.fin (w / t * c) := by
  simp [_convertXToPixels, hw, JSNum.fin_div_fin w ht]

theorem specX_cons_succ (w t c : ℚ) (cs : List ℚ) (i : Nat) :
    specX w t (c :: cs) (i + 1) = c * (w / t) + specX w t cs i := by
  simp [specX]

theorem specX_cons_zero (w t c : ℚ) (cs : List ℚ) : specX w t (c :: cs) 0 = c * (w / t) := by
  simp [specX]

theorem levelPointsFrom_zero (toPixel : JSNum → JSNum) (w t : ℚ) (orders : List PriceLevel)
    (counts : List ℚ) (i : Nat) :
    levelPointsFrom toPixel w t 0 orders counts i = specLevelPoints toPixel w t orders counts i := by
  simp [levelPointsFrom, specLevelPoints]

theorem levelPointsFrom_succ (toPixel : JSNum → JSNum) (w t x0 c : ℚ) (order : PriceLevel)
    (rest : List PriceLevel) (cs : List ℚ) (i : Nat) :
    levelPointsFrom toPixel w t x0 (order :: rest) (c :: cs) (i + 1) =
      levelPointsFrom toPixel w t (x0 + w / t * c) rest cs i := by
  have hx : x0 + (c * (w / t) + specX w t cs i) = x0 + w / t * c + specX w t cs i := by ring
  simp [levelPointsFrom, specX_cons_succ, hx]

theorem stairs_fin (self : View) {w t : ℚ} (hw : self._yAxis.width = JSNum.fin w) (ht : t ≠ 0) :
    ∀ (orders : List PriceLevel) (counts : List ℚ) (x0 : ℚ),
      orders.map PriceLevel.count = counts.map JSNum.fin →
      stairs self (JSNum.fin t) (JSNum.fin x0) orders =
        (List.range orders.length).flatMap
          (levelPointsFrom self._yAxis.convertToPixel w t x0 orders counts) := by
  intro orders
  induction orders with
  | nil => intro counts x0 _; simp [stairs]
  | cons order rest ih =>
    intro counts x0 hc
    cases counts with
    | nil => simp at hc
    | cons c cs =>
      simp only [List.map_cons, List.cons.injEq] at hc
      obtain ⟨hc0, hcs⟩ := hc
      have hconv := convertXToPixels_fin self c hw ht
      have hx : x0 + c * (w / t) = x0 + w / t * c := by ring
      rw [List.length_cons, List.range_succ_eq_map, List.flatMap_cons, List.flatMap_map]
      have htail : ((List.range rest.length).flatMap fun a =>
          levelPointsFrom self._yAxis.convertToPixel w t x0 (order :: rest) (c :: cs) a.succ) =
          (List.range rest.length).flatMap
            (levelPointsFrom self._yAxis.convertToPixel w t (x0 + w / t * c) rest cs) := by
        apply List.flatMap_congr
        intro i _
        exact levelPointsFrom_succ _ w t x0 c order rest cs i
      rw [htail, ← ih cs (x0 + w / t * c) hcs]
      cases rest with
      | nil => simp [stairs, levelPointsFrom, specX_cons_zero, hc0, hconv, hx]
      | cons next rest => simp [stairs, levelPointsFrom, specX_cons_zero, hc0, hconv, hx]

theorem finalX_fin (self : View) {w t : ℚ} (hw : self._yAxis.width = JSNum.fin w) (ht : t ≠ 0) :
    ∀ (orders : List PriceLevel) (counts : List ℚ) (x0 : ℚ),
      orders.map PriceLevel.count = counts.map JSNum.fin →
      finalX self (JSNum.fin t) (JSNum.fin x0) orders = JSNum.fin (x0 + w / t * counts.sum) := by
  intro orders
  induction orders with
  | nil =>
    intro counts x0 hc
    cases counts with
    | nil => simp [finalX]
    | cons c cs => simp at hc
  | cons order rest ih =>
    intro counts x0 hc
    cases counts with
    | nil => simp at hc
    | cons c cs =>
      simp only [List.map_cons, List.cons.injEq] at hc
      obtain ⟨hc0, hcs⟩ := hc
      have hx : x0 + w / t * c + w / t * cs.sum = x0 + w / t * (c + cs.sum) := by ring
      simp [finalX, hc0, convertXToPixels_fin self c hw ht, ih cs _ hcs, hx]

/-! ## Claims on the staircase -/

/-- C1: for counts that are finite numbers summing to `totalCount > 0`, the `currentX` that
`_drawLine` returns is the running sum of `_convertXToPixels(count, totalCount)` over the
levels in input order, and it equals the axis width exactly. -/
theorem drawLine_returns_axis_width (self : View) (orders : List PriceLevel) (counts : List ℚ)
    (w t : ℚ) (hw : self._yAxis.width = JSNum.fin w) (ht : 0 < t)
    (hcounts : orders.map PriceLevel.count = counts.map JSNum.fin) (hsum : counts.sum = t) :
    (_drawLine self orders (JSNum.fin t)).2 =
        orders.foldl
          (fun cur order => cur + _convertXToPixels self order.count (JSNum.fin t)) 0 ∧
      (_drawLine self orders (JSNum.fin t)).2 = self._yAxis.width := by
  have hne : t ≠ 0 := ne_of_gt ht
  refine ⟨?_, ?_⟩
  · rw [drawLine_eq]
    exact finalX_eq_foldl self (JSNum.fin t) orders 0
  · rw [drawLine_eq, hw]
    have h := finalX_fin self hw hne orders counts 0 hcounts
    have h0 : (0 : JSNum) = JSNum.fin 0 := by simp
    have hx : 0 + w / t * t = w := by field_simp
    rw [h0, h, hsum, hx]

theorem drawLine_returns_axis_width_witness :
    (0 : ℚ) < 40 ∧ ([10, 30] : List ℚ).sum = 40 ∧
      (_drawLine (sampleView ⟨none, none⟩) sampleBids.items (JSNum.fin 40)).2 =
        (sampleView ⟨none, none⟩)._yAxis.width :=
  ⟨by norm_num, by norm_num,
    (drawLine_returns_axis_width (sampleView ⟨none, none⟩) sampleBids.items [10, 30] 100 40
      (by simp [sampleView, sampleAxis]) (by norm_num) (by simp [sampleBids])
      (by norm_num)).2⟩

/-- C6: for `n ≥ 1` levels with finite counts and `totalCount > 0`, `_drawLine` issues
exactly the `2n - 1` points of the staircase, in order: for each level `i` the point
`(X i, toPixel (price i))` and then, when a next level exists, `(X i, toPixel (price (i+1)))`,
where `X i` is the sum over `j ≤ i` of `count j * (axisWidth / totalCount)`.  For the single
level of price 105 and count 10 with `totalCount` 10 and width 100, the path of
`_drawOrderLine` after its anchor is the one run from `(0, toPixel 105)` to
`(100, toPixel 105)`. -/
theorem drawLine_staircase (self : View) (orders : List PriceLevel) (counts : List ℚ)
    (w t : ℚ) (hn : 1 ≤ orders.length) (hw : self._yAxis.width = JSNum.fin w) (ht : 0 < t)
    (hcounts : orders.map PriceLevel.count = counts.map JSNum.fin) :
    (_drawLine self orders (JSNum.fin t)).1 =
        specStaircase self._yAxis.convertToPixel w t orders counts ∧
      (_drawLine self orders (JSNum.fin t)).1.length + 1 = 2 * orders.length ∧
      (∀ c ∈ (_drawLine self orders (JSNum.fin t)).1, ∃ x y, c = Cmd.lineTo x y) ∧
      (w = 100 → ∀ (chartType : String) (styles : ChartStyles),
        (pathPoints (_drawOrderLine self [⟨105, 10⟩] 10 chartType styles).cmds).tail =
          [Cmd.lineTo 0 (self._yAxis.convertToPixel 105),
           Cmd.lineTo 100 (self._yAxis.convertToPixel 105)]) := by
  have hne : t ≠ 0 := ne_of_gt ht
  have h0 : (0 : JSNum) = JSNum.fin 0 := by simp
  have hst : (_drawLine self orders (JSNum.fin t)).1 =
      specStaircase self._yAxis.convertToPixel w t orders counts := by
    rw [drawLine_eq, h0]
    simp only
    rw [stairs_fin self hw hne orders counts 0 hcounts]
    unfold specStaircase
    apply List.flatMap_congr
    intro i _
    exact levelPointsFrom_zero _ w t orders counts i
  refine ⟨hst, ?_, ?_, ?_⟩
  · rw [drawLine_eq]
    have h := stairs_length self (JSNum.fin t) orders 0
    simp only at h ⊢
    omega
  · intro c hc
    rw [hst] at hc
    simp only [specStaircase, List.mem_flatMap] at hc
    obtain ⟨i, _, hi⟩ := hc
    unfold specLevelPoints at hi
    split at hi
    · simp at hi
    · split at hi
      · simp only [List.mem_cons, List.mem_singleton, List.not_mem_nil, or_false] at hi
        rcases hi with hi | hi <;> exact ⟨_, _, hi⟩
      · simp only [List.mem_singleton] at hi
        exact ⟨_, _, hi⟩
  · intro hw100 chartType styles
    subst hw100
    have hd : _drawLine self [⟨JSNum.fin 105, JSNum.fin 10⟩] (JSNum.fin 10) =
        ([Cmd.lineTo (JSNum.fin 100) (self._yAxis.convertToPixel (JSNum.fin 105))],
          JSNum.fin 100) := by
      rw [drawLine_eq]
      simp [stairs, finalX, _convertXToPixels, hw, JSNum.fin_div_fin]
    simp [_drawOrderLine, hd, Run.emit, pathPoints, Cmd.isPoint]

theorem drawLine_staircase_witness :
    1 ≤ sampleBids.items.length ∧ (0 : ℚ) < 40 ∧
      (_drawLine (sampleView ⟨none, none⟩) sampleBids.items (JSNum.fin 40)).1 =
        specStaircase (sampleView ⟨none, none⟩)._yAxis.convertToPixel 100 40
          sampleBids.items [10, 30] :=
  ⟨by simp [sampleBids], by norm_num,
    (drawLine_staircase (sampleView ⟨none, none⟩) sampleBids.items [10, 30] 100 40
      (by simp [sampleBids]) (by simp [sampleView, sampleAxis]) (by norm_num)
      (by simp [sampleBids])).1⟩

/-! ## Claims on the two paths of a side -/

theorem stairs_filter_isPoint (self : View) (totalCount : JSNum) :
    ∀ (orders : List PriceLevel) (x : JSNum),
      (stairs self totalCount x orders).filter Cmd.isPoint = stairs self totalCount x orders := by
  intro orders
  induction orders with
  | nil => intro x; rfl
  | cons order rest ih =>
    intro x
    cases rest with
    | nil => simp [stairs, Cmd.isPoint]
    | cons next rest =>
      have h := ih (x + _convertXToPixels self order.count totalCount)
      simp only [stairs, List.filter_cons, List.filter_append, Cmd.isPoint, if_true,
        List.filter_nil] at h ⊢
      rw [h]

/-- C7: for a side with at least one level, both paths return, the points of the area path
are the points of the stroke path followed by one more `lineTo (X_last, baseline)`, where
`X_last` is the `currentX` returned by `_drawLine` and the baseline is `toPixel 0` for the
tag `asks` and 0 otherwise; the area path is `beginPath`, these points, `closePath`, then the
gradient and the fill. -/
theorem area_path_extends_stroke_path (self : View) (orders : List PriceLevel)
    (totalCount : JSNum) (chartType : String) (styles : ChartStyles) (hn : orders ≠ []) :
    (_drawOrderLine self orders totalCount chartType styles).result = Except.ok () ∧
      (_drawOrdersArea self orders totalCount chartType styles).result = Except.ok () ∧
      pathPoints (_drawOrdersArea self orders totalCount chartType styles).cmds =
        pathPoints (_drawOrderLine self orders totalCount chartType styles).cmds ++
          [Cmd.lineTo (_drawLine self orders totalCount).2
            (if chartType = "asks" then self._yAxis.convertToPixel 0 else 0)] ∧
      (_drawOrdersArea self orders totalCount chartType styles).cmds =
        Cmd.beginPath ::
          (pathPoints (_drawOrdersArea self orders totalCount chartType styles).cmds ++
            [Cmd.closePath, Cmd.createLinearGradient 500 0 0 0,
             Cmd.addColorStop 0 styles.colorRight, Cmd.addColorStop 1 styles.colorLeft,
             Cmd.setFillStyleGradient, Cmd.fill]) := by
  cases orders with
  | nil => exact absurd rfl hn
  | cons first rest =>
    have hf := stairs_filter_isPoint self totalCount (first :: rest) 0
    simp only [_drawOrderLine, _drawOrdersArea, drawLine_eq, Run.emit, pathPoints,
      List.getElem?_cons_zero]
    refine ⟨trivial, trivial, ?_, ?_⟩
    · simp only [List.filter_cons, List.filter_append, Cmd.isPoint, List.append_assoc,
        List.cons_append, List.nil_append, hf, List.filter_nil]
      simp
    · simp only [List.filter_cons, List.filter_append, Cmd.isPoint, List.append_assoc,
        List.cons_append, List.nil_append, hf, List.filter_nil]
      simp

theorem area_path_extends_stroke_path_witness :
    sampleBids.items ≠ [] ∧
      pathPoints (_drawOrdersArea (sampleView ⟨none, none⟩) sampleBids.items 40 "bids"
          sampleBidsStyles).cmds =
        pathPoints (_drawOrderLine (sampleView ⟨none, none⟩) sampleBids.items 40 "bids"
          sampleBidsStyles).cmds ++
          [Cmd.lineTo (_drawLine (sampleView ⟨none, none⟩) sampleBids.items 40).2
            (if "bids" = "asks" then (sampleView ⟨none, none⟩)._yAxis.convertToPixel 0 else 0)] :=
  ⟨by simp [sampleBids],
    (area_path_extends_stroke_path (sampleView ⟨none, none⟩) sampleBids.items 40 "bids"
      sampleBidsStyles (by simp [sampleBids])).2.2.1⟩

/-- C5, as the code runs: for the tag `asks` the anchor handed to `moveTo` has x 0 and, as
y, the function object stored at `initialCoordinates.asksChart.y`, in the stroke path and in
the area path alike.  That value is not the number `toPixel 0`: the canvas converts it to
`NaN`, and calling it throws. -/
theorem asks_anchor_is_function_object (self : View) (orders : List PriceLevel)
    (totalCount : JSNum) (styles : ChartStyles) :
    (_drawOrderLine self orders totalCount "asks" styles).cmds.take 4 =
        [Cmd.beginPath, Cmd.setStrokeStyle styles.lineColor, Cmd.setLineWidth 3,
         Cmd.moveTo (JSVal.num 0) (JSVal.func Closure.asksChartY)] ∧
      (_drawOrdersArea self orders totalCount "asks" styles).cmds.take 2 =
        [Cmd.beginPath, Cmd.moveTo (JSVal.num 0) (JSVal.func Closure.asksChartY)] ∧
      JSVal.func Closure.asksChartY ≠ JSVal.num (self._yAxis.convertToPixel 0) ∧
      (JSVal.func Closure.asksChartY).toNumber = JSNum.nan ∧
      Closure.call self._yAxis Closure.asksChartY = Except.error JSError.typeError := by
  refine ⟨?_, ?_, ?_, rfl, rfl⟩
  · cases orders <;> simp [_drawOrderLine, initialCoordinates, Run.emit]
  · cases orders <;> simp [_drawOrdersArea, initialCoordinates, Run.emit]
  · intro h
    cases h

/-! ## Claims on a zero `totalCount` -/

theorem convertXToPixels_zero_isFinite (self : View) (count : JSNum) :
    (_convertXToPixels self count (JSNum.fin 0)).isFinite = false := by
  unfold _convertXToPixels
  exact JSNum.isFinite_mul_left count (JSNum.isFinite_div_zero self._yAxis.width)

theorem stairs_zero_isFinite (self : View) :
    ∀ (orders : List PriceLevel) (x0 x y : JSNum),
      Cmd.lineTo x y ∈ stairs self (JSNum.fin 0) x0 orders → x.isFinite = false := by
  intro orders
  induction orders with
  | nil => intro x0 x y h; simp [stairs] at h
  | cons order rest ih =>
    intro x0 x y h
    have hx := JSNum.isFinite_add_right x0 (convertXToPixels_zero_isFinite self order.count)
    cases rest with
    | nil =>
      simp only [stairs, List.append_nil, List.mem_singleton, Cmd.lineTo.injEq] at h
      rw [h.1]
      exact hx
    | cons next rest =>
      simp only [stairs, List.mem_cons, List.cons_append, List.nil_append,
        Cmd.lineTo.injEq] at h
      rcases h with h | h | h
      · rw [h.1]; exact hx
      · rw [h.1]; exact hx
      · exact ih _ x y (by simpa [stairs] using h)

/-- C4, as the claim states it, fails: with `totalCount` 0, width 100 and the single level
of price 105 and count 10, the x-coordinate is computed as `(100 / 0) * 10`, which is
`Infinity`, and `_drawOrderChart` issues a `lineTo` with it, the stroke and the fill. -/
theorem zero_totalCount_side_is_drawn :
    _convertXToPixels (sampleView ⟨none, none⟩) 10 0 = JSNum.posInf ∧
      Cmd.lineTo JSNum.posInf (JSNum.fin 95) ∈
        (_drawOrderChart (sampleView ⟨none, none⟩) [⟨105, 10⟩] 0 "bids" sampleBidsStyles).cmds ∧
      Cmd.stroke ∈
        (_drawOrderChart (sampleView ⟨none, none⟩) [⟨105, 10⟩] 0 "bids" sampleBidsStyles).cmds ∧
      Cmd.fill ∈
        (_drawOrderChart (sampleView ⟨none, none⟩) [⟨105, 10⟩] 0 "bids" sampleBidsStyles).cmds := by
  have hx : _convertXToPixels (sampleView ⟨none, none⟩) (JSNum.fin 10) (JSNum.fin 0) =
      JSNum.posInf := by
    simp only [_convertXToPixels, sampleView, sampleAxis, JSNum.ofNat_eq_fin]
    show JSNum.mul (JSNum.div (JSNum.fin 100) (JSNum.fin 0)) (JSNum.fin 10) = JSNum.posInf
    norm_num [JSNum.div, JSNum.mul, JSNum.inf, JSNum.infMul]
  have hp : (sampleView ⟨none, none⟩)._yAxis.convertToPixel (JSNum.fin 105) = JSNum.fin 95 := by
    simp only [sampleView, sampleAxis, JSNum.ofNat_eq_fin, JSNum.fin_sub_fin]
    norm_num
  have h0 : JSNum.fin 0 + JSNum.posInf = JSNum.posInf := rfl
  have hd : _drawLine (sampleView ⟨none, none⟩) [⟨JSNum.fin 105, JSNum.fin 10⟩] (JSNum.fin 0) =
      ([Cmd.lineTo JSNum.posInf (JSNum.fin 95)], JSNum.posInf) := by
    rw [drawLine_eq]
    simp [stairs, finalX, hx, hp, h0]
  refine ⟨by simpa using hx, ?_, ?_, ?_⟩ <;>
    simp [_drawOrderChart, _drawOrderLine, _drawOrdersArea, Run.andThen, Run.emit, hd]

/-- C4, amended: a side with `totalCount` 0 and at least one level is not skipped.
`_drawOrderChart` runs `_drawOrderLine` and `_drawOrdersArea` to completion, so the stroke
and the fill are issued; every x-coordinate is computed as `(width / totalCount) * count`
with the zero divisor and is not finite, and the `2n - 1` calls of `_drawLine`, all
`lineTo` with such an x, are part of both paths. -/
theorem zero_totalCount_not_guarded (self : View) (items : List PriceLevel)
    (chartType : String) (styles : ChartStyles) (hn : items ≠ []) :
    (_drawOrderChart self items 0 chartType styles).result = Except.ok () ∧
      (_drawOrderChart self items 0 chartType styles).cmds =
        (_drawOrderLine self items 0 chartType styles).cmds ++
          (_drawOrdersArea self items 0 chartType styles).cmds ∧
      Cmd.stroke ∈ (_drawOrderLine self items 0 chartType styles).cmds ∧
      Cmd.fill ∈ (_drawOrdersArea self items 0 chartType styles).cmds ∧
      (∀ count, (_convertXToPixels self count 0).isFinite = false) ∧
      (_drawLine self items 0).1.length + 1 = 2 * items.length ∧
      (∀ x y, Cmd.lineTo x y ∈ (_drawLine self items 0).1 → x.isFinite = false) ∧
      (_drawLine self items 0).1 <:+: (_drawOrderLine self items 0 chartType styles).cmds ∧
      (_drawLine self items 0).1 <:+: (_drawOrdersArea self items 0 chartType styles).cmds := by
  cases items with
  | nil => exact absurd rfl hn
  | cons first rest =>
    refine ⟨?_, ?_, ?_, ?_, ?_, ?_, ?_, ?_, ?_⟩
    · simp [_drawOrderChart, _drawOrderLine, _drawOrdersArea, Run.andThen, Run.emit]
    · simp [_drawOrderChart, _drawOrderLine, _drawOrdersArea, Run.andThen, Run.emit]
    · simp [_drawOrderLine, Run.emit]
    · simp [_drawOrdersArea, Run.emit]
    · intro count
      exact convertXToPixels_zero_isFinite self count
    · rw [drawLine_eq]
      have h := stairs_length self 0 (first :: rest) 0
      simp only [List.length_cons] at h ⊢
      omega
    · intro x y h
      rw [drawLine_eq] at h
      exact stairs_zero_isFinite self (first :: rest) 0 x y h
    · simp only [_drawOrderLine, Run.emit, List.getElem?_cons_zero]
      exact ⟨_, _, rfl⟩
    · simp only [_drawOrdersArea, Run.emit, List.getElem?_cons_zero]
      exact ⟨_, _, rfl⟩

theorem zero_totalCount_not_guarded_witness :
    sampleAsks.items ≠ [] ∧
      Cmd.stroke ∈ (_drawOrderLine (sampleView ⟨none, none⟩) sampleAsks.items 0 "asks"
        sampleAsksStyles).cmds ∧
      Cmd.fill ∈ (_drawOrdersArea (sampleView ⟨none, none⟩) sampleAsks.items 0 "asks"
        sampleAsksStyles).cmds :=
  ⟨by simp [sampleAsks],
    (zero_totalCount_not_guarded (sampleView ⟨none, none⟩) sampleAsks.items "asks"
      sampleAsksStyles (by simp [sampleAsks])).2.2.1,
    (zero_totalCount_not_guarded (sampleView ⟨none, none⟩) sampleAsks.items "asks"
      sampleAsksStyles (by simp [sampleAsks])).2.2.2.1⟩

/-! ## Claims on the render pass -/

theorem drawCrossHairLabel_cases (self : View) :
    _drawCrossHairLabel self = [] ∨
      _drawCrossHairLabel self =
        [Cmd.renderStrokeFillRoundRect
           self._chartStore.styleOptions.crosshair.horizontal.text.backgroundColor
           self._chartStore.styleOptions.crosshair.horizontal.text.borderColor
           self._chartStore.styleOptions.crosshair.horizontal.text.borderSize
           (if self._yAxis.isFromYAxisZero then 0
            else self._width - self.getTextRectWidth
              (_drawCrossHairLabel.text self
                (self._yAxis.convertFromPixel self._chartStore.crosshairStore.y))
              self._chartStore.styleOptions.crosshair.horizontal.text)
           (self._chartStore.crosshairStore.y -
              self._chartStore.styleOptions.crosshair.horizontal.text.borderSize -
              self._chartStore.styleOptions.crosshair.horizontal.text.paddingTop -
              self._chartStore.styleOptions.crosshair.horizontal.text.size / 2)
           (self.getTextRectWidth
              (_drawCrossHairLabel.text self
                (self._yAxis.convertFromPixel self._chartStore.crosshairStore.y))
              self._chartStore.styleOptions.crosshair.horizontal.text)
           (self.getTextRectHeight self._chartStore.styleOptions.crosshair.horizontal.text)
           self._chartStore.styleOptions.crosshair.horizontal.text.borderRadius,
         Cmd.renderText
           self._chartStore.styleOptions.crosshair.horizontal.text.color
           ((if self._yAxis.isFromYAxisZero then 0
             else self._width - self.getTextRectWidth
               (_drawCrossHairLabel.text self
                 (self._yAxis.convertFromPixel self._chartStore.crosshairStore.y))
               self._chartStore.styleOptions.crosshair.horizontal.text) +
              self._chartStore.styleOptions.crosshair.horizontal.text.borderSize +
              self._chartStore.styleOptions.crosshair.horizontal.text.paddingLeft)
           self._chartStore.crosshairStore.y
           (_drawCrossHairLabel.text self
             (self._yAxis.convertFromPixel self._chartStore.crosshairStore.y))] := by
  unfold _drawCrossHairLabel
  simp only
  split_ifs <;> first | exact Or.inl rfl | exact Or.inr rfl

theorem drawCrossHairLabel_not_depth (self : View) :
    ∀ c ∈ _drawCrossHairLabel self, c.isDepthChart = false := by
  intro c hc
  rcases drawCrossHairLabel_cases self with h | h
  · rw [h] at hc; simp at hc
  · rw [h] at hc
    simp only [List.mem_cons, List.mem_singleton, List.not_mem_nil, or_false] at hc
    rcases hc with hc | hc <;> rw [hc] <;> rfl

theorem drawTag_not_depth (self : View) : ∀ c ∈ _drawTag self, c.isDepthChart = false := by
  intro c hc
  unfold _drawTag at hc
  split at hc
  · simp only [List.mem_map] at hc
    obtain ⟨t, _, ht⟩ := hc
    rw [← ht]; rfl
  · simp at hc

/-- C2: when `asks` or `bids` is absent, the pass issues only the text baseline, the tags and
the crosshair label, none of which is a depth-chart call; so a depth-chart call is issued
only when both sides are present.  When both are present the calls of the `asks` side come
first, and the calls of the `bids` side follow them once the `asks` side has returned. -/
theorem draw_depth_chart_needs_both_sides (self : View) :
    ((self._chartStore.getAsksBidsData.asks = none ∨
        self._chartStore.getAsksBidsData.bids = none) →
      (_draw self).cmds =
          [Cmd.setTextBaseline "middle"] ++ _drawTag self ++ _drawCrossHairLabel self ∧
        ∀ c ∈ (_draw self).cmds, c.isDepthChart = false) ∧
      (∀ asks bids, self._chartStore.getAsksBidsData.asks = some asks →
        self._chartStore.getAsksBidsData.bids = some bids →
        ∃ rest, (_draw self).cmds =
            (_drawOrderChart self asks.items asks.totalCount "asks"
              self._chartStore.styleOptions.yAxis.asksChart).cmds ++ rest ∧
          ((_drawOrderChart self asks.items asks.totalCount "asks"
              self._chartStore.styleOptions.yAxis.asksChart).result = Except.ok () →
            ∃ rest2, rest =
              (_drawOrderChart self bids.items bids.totalCount "bids"
                self._chartStore.styleOptions.yAxis.bidsChart).cmds ++ rest2)) := by
  constructor
  · intro h
    have hcmds : (_draw self).cmds =
        [Cmd.setTextBaseline "middle"] ++ _drawTag self ++ _drawCrossHairLabel self := by
      unfold _draw
      rcases h with h | h
      · simp [h, Run.andThen, Run.emit]
      · cases ha : self._chartStore.getAsksBidsData.asks <;>
          simp [h, Run.andThen, Run.emit]
    refine ⟨hcmds, ?_⟩
    intro c hc
    rw [hcmds] at hc
    simp only [List.mem_append, List.mem_singleton] at hc
    rcases hc with (hc | hc) | hc
    · rw [hc]; rfl
    · exact drawTag_not_depth self c hc
    · exact drawCrossHairLabel_not_depth self c hc
  · intro asks bids ha hb
    unfold _draw
    simp only [ha, hb]
    cases hra : (_drawOrderChart self asks.items asks.totalCount "asks"
        self._chartStore.styleOptions.yAxis.asksChart).result with
    | error e =>
      refine ⟨[], ?_, ?_⟩
      · simp [Run.andThen, hra]
      · intro h; cases h
    | ok u =>
      cases hrb : (_drawOrderChart self bids.items bids.totalCount "bids"
          self._chartStore.styleOptions.yAxis.bidsChart).result with
      | error e =>
        refine ⟨(_drawOrderChart self bids.items bids.totalCount "bids"
          self._chartStore.styleOptions.yAxis.bidsChart).cmds, ?_, ?_⟩
        · simp only [Run.andThen, hra, hrb]
        · intro _; exact ⟨[], by simp⟩
      | ok v =>
        refine ⟨(_drawOrderChart self bids.items bids.totalCount "bids"
          self._chartStore.styleOptions.yAxis.bidsChart).cmds ++
            ([Cmd.setTextBaseline "middle"] ++ _drawTag self ++ _drawCrossHairLabel self),
          ?_, ?_⟩
        · simp only [Run.andThen, hra, hrb, Run.emit, List.append_assoc]
        · intro _; exact ⟨_, rfl⟩

theorem draw_depth_chart_needs_both_sides_witness :
    (sampleView ⟨none, some sampleBids⟩)._chartStore.getAsksBidsData.asks = none ∧
      (_draw (sampleView ⟨none, some sampleBids⟩)).cmds =
        [Cmd.setTextBaseline "middle"] ++ _drawTag (sampleView ⟨none, some sampleBids⟩) ++
          _drawCrossHairLabel (sampleView ⟨none, some sampleBids⟩) :=
  ⟨rfl, ((draw_depth_chart_needs_both_sides (sampleView ⟨none, some sampleBids⟩)).1
    (Or.inl rfl)).1⟩

theorem stairs_isDepthChart (self : View) (totalCount : JSNum) (orders : List PriceLevel)
    (x : JSNum) : ∀ c ∈ stairs self totalCount x orders, c.isDepthChart = true := by
  intro c hc
  rw [← stairs_filter_isPoint, List.mem_filter] at hc
  cases c <;> simp_all [Cmd.isPoint, Cmd.isDepthChart]

theorem drawOrderChart_isDepthChart (self : View) (items : List PriceLevel) (totalCount : JSNum)
    (chartType : String) (styles : ChartStyles) :
    ∀ c ∈ (_drawOrderChart self items totalCount chartType styles).cmds,
      c.isDepthChart = true := by
  have hs := stairs_isDepthChart self totalCount
  cases items with
  | nil =>
    simp [_drawOrderChart, _drawOrderLine, Run.andThen, Cmd.isDepthChart]
  | cons first rest =>
    simp only [_drawOrderChart, _drawOrderLine, _drawOrdersArea, Run.andThen, Run.emit,
      List.getElem?_cons_zero, drawLine_eq, List.forall_mem_append, List.forall_mem_cons]
    simp only [Cmd.isDepthChart, List.not_mem_nil, false_implies, implies_true, and_true,
      true_and]
    exact ⟨hs _ _, hs _ _⟩

/-- C3, as the code runs: with both sides present and an empty `items` on one side, reading
`items[0].price` throws.  With empty asks the pass stops after the first four calls of
`_drawOrderLine`; with empty bids it stops after the asks side and the same four calls for
the bids.  In both cases the tags and the crosshair label are not drawn. -/
theorem draw_empty_items_throws :
    (_draw (sampleView ⟨some ⟨[], 0⟩, some sampleBids⟩)).result =
        Except.error JSError.typeError ∧
      (_draw (sampleView ⟨some ⟨[], 0⟩, some sampleBids⟩)).cmds =
        [Cmd.beginPath, Cmd.setStrokeStyle "#f00", Cmd.setLineWidth 3,
         Cmd.moveTo (JSVal.num 0) (JSVal.func Closure.asksChartY)] ∧
      (_draw (sampleView ⟨some sampleAsks, some ⟨[], 0⟩⟩)).result =
        Except.error JSError.typeError ∧
      (_draw (sampleView ⟨some sampleAsks, some ⟨[], 0⟩⟩)).cmds =
        (_drawOrderChart (sampleView ⟨some sampleAsks, some ⟨[], 0⟩⟩) sampleAsks.items 10
          "asks" sampleAsksStyles).cmds ++
        [Cmd.beginPath, Cmd.setStrokeStyle "#0f0", Cmd.setLineWidth 3,
         Cmd.moveTo (JSVal.num 0) (JSVal.num 0)] ∧
      (∀ c ∈ (_draw (sampleView ⟨some sampleAsks, some ⟨[], 0⟩⟩)).cmds,
        c.isDepthChart = true) := by
  refine ⟨?_, ?_, ?_, ?_, ?_⟩
  · simp [_draw, sampleView, sampleStore, _drawOrderChart, _drawOrderLine, Run.andThen]
  · simp [_draw, sampleView, sampleStore, _drawOrderChart, _drawOrderLine, Run.andThen,
      initialCoordinates, sampleStyleOptions, sampleAsksStyles]
  · simp [_draw, sampleView, sampleStore, _drawOrderChart, _drawOrderLine, _drawOrdersArea,
      Run.andThen, Run.emit, sampleAsks]
  · simp [_draw, sampleView, sampleStore, _drawOrderChart, _drawOrderLine, _drawOrdersArea,
      Run.andThen, Run.emit, sampleAsks, initialCoordinates, sampleStyleOptions,
      sampleBidsStyles, sampleAsksStyles]
  · intro c hc
    have h4 : (_draw (sampleView ⟨some sampleAsks, some ⟨[], 0⟩⟩)).cmds =
        (_drawOrderChart (sampleView ⟨some sampleAsks, some ⟨[], 0⟩⟩) sampleAsks.items 10
          "asks" sampleAsksStyles).cmds ++
        [Cmd.beginPath, Cmd.setStrokeStyle "#0f0", Cmd.setLineWidth 3,
         Cmd.moveTo (JSVal.num 0) (JSVal.num 0)] := by
      simp [_draw, sampleView, sampleStore, _drawOrderChart, _drawOrderLine, _drawOrdersArea,
        Run.andThen, Run.emit, sampleAsks, initialCoordinates, sampleStyleOptions,
        sampleBidsStyles, sampleAsksStyles]
    rw [h4] at hc
    simp only [List.mem_append, List.mem_cons, List.not_mem_nil, or_false] at hc
    rcases hc with hc | hc | hc | hc | hc
    · exact drawOrderChart_isDepthChart _ _ _ _ _ c hc
    all_goals (rw [hc]; rfl)

/-! ## Claims on the crosshair label -/

theorem drawCrossHairLabel_eq_nil_iff (self : View) :
    _drawCrossHairLabel self = [] ↔
      (self._chartStore.crosshairStore.paneId ≠ some self._paneId ∨
        self._chartStore.dataList = [] ∨
        self._chartStore.styleOptions.crosshair.show_ = false ∨
        self._chartStore.styleOptions.crosshair.horizontal.show_ = false ∨
        self._chartStore.styleOptions.crosshair.horizontal.text.show_ = false) := by
  unfold _drawCrossHairLabel
  simp only
  by_cases h1 : self._chartStore.crosshairStore.paneId ≠ some self._paneId ∨
      self._chartStore.dataList.length = 0
  · rw [if_pos h1]
    rcases h1 with h1 | h1
    · simp [h1]
    · simp [List.length_eq_zero.mp h1]
  · rw [if_neg h1]
    rw [List.length_eq_zero] at h1
    push_neg at h1
    cases h2 : self._chartStore.styleOptions.crosshair.show_ <;>
      cases h3 : self._chartStore.styleOptions.crosshair.horizontal.show_ <;>
      cases h4 : self._chartStore.styleOptions.crosshair.horizontal.text.show_ <;>
      simp [h1.1, h1.2]

theorem precision_fold (techs : List TechnicalIndicator) :
    ∀ acc : Nat × Bool,
      acc.1 ≤ (techs.foldl _drawCrossHairLabel.step acc).1 ∧
        (∀ t ∈ techs, t.precision ≤ (techs.foldl _drawCrossHairLabel.step acc).1) ∧
        ((techs.foldl _drawCrossHairLabel.step acc).1 = acc.1 ∨
          ∃ t ∈ techs, t.precision = (techs.foldl _drawCrossHairLabel.step acc).1) := by
  induction techs with
  | nil => intro acc; simp
  | cons tech rest ih =>
    intro acc
    obtain ⟨h1, h2, h3⟩ := ih (_drawCrossHairLabel.step acc tech)
    have hstep : (_drawCrossHairLabel.step acc tech).1 = max tech.precision acc.1 := rfl
    rw [hstep] at h1 h3
    simp only [List.foldl_cons, List.mem_cons, forall_eq_or_imp, exists_eq_or_imp]
    refine ⟨le_trans (le_max_right _ _) h1, ⟨le_trans (le_max_left _ _) h1, h2⟩, ?_⟩
    rcases h3 with h3 | ⟨t, ht, h3⟩
    · rcases le_total tech.precision acc.1 with hle | hle
      · left; rw [h3]; exact max_eq_right hle
      · right; left; rw [h3]; exact (max_eq_left hle).symm
    · right; right; exact ⟨t, ht, h3⟩

/-- C8, as the claim states it, fails: on an axis that is not anchored at pixel 0, with a
view 100 wide and a label measured 100 wide, the label is drawn and the x-coordinate of its
box is `100 - 100`, which is 0. -/
theorem label_x_zero_without_anchor :
    (sampleView ⟨none, none⟩)._yAxis.isFromYAxisZero = false ∧
      _drawCrossHairLabel (sampleView ⟨none, none⟩) =
        [Cmd.renderStrokeFillRoundRect "#333" "#000" (JSNum.fin 1) (JSNum.fin 0) (JSNum.fin 41)
           (JSNum.fin 100) (JSNum.fin 18) (JSNum.fin 2),
         Cmd.renderText "#fff" (JSNum.fin 3) (JSNum.fin 50)
           (Text.formatPrecision (JSNum.fin 150) 4)] := by
  refine ⟨rfl, ?_⟩
  have hdiv : (JSNum.fin 12 : JSNum) / JSNum.fin 2 = JSNum.fin 6 := by
    rw [JSNum.fin_div_fin 12 (by norm_num)]
    norm_num
  simp [_drawCrossHairLabel, _drawCrossHairLabel.text, _drawCrossHairLabel.step, sampleView,
    sampleStore, sampleAxis, sampleStyleOptions, sampleTextOptions, hdiv]
  norm_num

/-- C8, amended: whenever the crosshair label is drawn, for any text, the x-coordinate of the
label box is 0 if the axis is anchored at pixel 0 (`isFromYAxisZero`), and otherwise it is
`W - labelWidth`, where `W` is the width `_width` of the view and `labelWidth` is the
measured width of the formatted text; so it is 0 exactly when the axis is anchored or
`W - labelWidth` is 0. -/
theorem crosshair_label_anchor (self : View) (hdrawn : _drawCrossHairLabel self ≠ []) :
    ∃ bg bc bs x y w h r color tx ty text,
      _drawCrossHairLabel self =
          [Cmd.renderStrokeFillRoundRect bg bc bs x y w h r, Cmd.renderText color tx ty text] ∧
        w = self.getTextRectWidth text self._chartStore.styleOptions.crosshair.horizontal.text ∧
        (self._yAxis.isFromYAxisZero = true → x = 0) ∧
        (self._yAxis.isFromYAxisZero = false → x = self._width - w) ∧
        (x = 0 ↔ (self._yAxis.isFromYAxisZero = true ∨ self._width - w = 0)) := by
  rcases drawCrossHairLabel_cases self with h | h
  · exact absurd h hdrawn
  · refine ⟨_, _, _, _, _, _, _, _, _, _, _, _, h, rfl, ?_, ?_, ?_⟩
    · intro ha; simp [ha]
    · intro ha; simp [ha]
    · cases ha : self._yAxis.isFromYAxisZero <;> simp

theorem crosshair_label_anchor_witness :
    _drawCrossHairLabel (sampleView ⟨none, none⟩) ≠ [] ∧
      ∃ bg bc bs x y w h r color tx ty text,
        _drawCrossHairLabel (sampleView ⟨none, none⟩) =
            [Cmd.renderStrokeFillRoundRect bg bc bs x y w h r,
             Cmd.renderText color tx ty text] ∧
          w = (sampleView ⟨none, none⟩).getTextRectWidth text
            (sampleView ⟨none, none⟩)._chartStore.styleOptions.crosshair.horizontal.text ∧
          ((sampleView ⟨none, none⟩)._yAxis.isFromYAxisZero = true → x = 0) ∧
          ((sampleView ⟨none, none⟩)._yAxis.isFromYAxisZero = false →
            x = (sampleView ⟨none, none⟩)._width - w) ∧
          (x = 0 ↔ ((sampleView ⟨none, none⟩)._yAxis.isFromYAxisZero = true ∨
            (sampleView ⟨none, none⟩)._width - w = 0)) :=
  ⟨by rw [Ne, drawCrossHairLabel_eq_nil_iff]; simp [sampleView, sampleStore, sampleStyleOptions,
        sampleTextOptions],
    crosshair_label_anchor (sampleView ⟨none, none⟩)
      (by rw [Ne, drawCrossHairLabel_eq_nil_iff]; simp [sampleView, sampleStore,
        sampleStyleOptions, sampleTextOptions])⟩

/-- C9: when the label is drawn on an axis that is not in percentage mode, its text is the
call `formatPrecision(value, precision)`, possibly wrapped in `formatBigNumber`, where
`precision` is the store's `pricePrecision` on the candle axis and otherwise the maximum
precision over the indicator instances of this pane: an upper bound of all of them that one
of them attains, and 0 when there are none. -/
theorem crosshair_label_precision (self : View) (hdrawn : _drawCrossHairLabel self ≠ [])
    (habs : self._yAxis.yAxisType ≠ YAxisType.percentage) :
    ∃ (precision : Nat) (big : Bool) (bg bc : String) (bs x y w h r : JSNum) (color : String)
        (tx ty : JSNum),
      _drawCrossHairLabel self =
          [Cmd.renderStrokeFillRoundRect bg bc bs x y w h r,
           Cmd.renderText color tx ty
             (if big then
                Text.formatBigNumber (Text.formatPrecision
                  (self._yAxis.convertFromPixel self._chartStore.crosshairStore.y) precision)
              else
                Text.formatPrecision
                  (self._yAxis.convertFromPixel self._chartStore.crosshairStore.y) precision)] ∧
        (self._yAxis.isCandleYAxis = true → precision = self._chartStore.pricePrecision) ∧
        (self._yAxis.isCandleYAxis = false →
          (∀ t ∈ self._chartStore.technicalIndicatorStore self._paneId,
              t.precision ≤ precision) ∧
            (self._chartStore.technicalIndicatorStore self._paneId = [] → precision = 0) ∧
            (self._chartStore.technicalIndicatorStore self._paneId ≠ [] →
              ∃ t ∈ self._chartStore.technicalIndicatorStore self._paneId,
                t.precision = precision)) := by
  rcases drawCrossHairLabel_cases self with h | h
  · exact absurd h hdrawn
  · cases hc : self._yAxis.isCandleYAxis with
    | true =>
      have htext : _drawCrossHairLabel.text self
          (self._yAxis.convertFromPixel self._chartStore.crosshairStore.y) =
          (if false then
             Text.formatBigNumber (Text.formatPrecision
               (self._yAxis.convertFromPixel self._chartStore.crosshairStore.y)
               self._chartStore.pricePrecision)
           else
             Text.formatPrecision
               (self._yAxis.convertFromPixel self._chartStore.crosshairStore.y)
               self._chartStore.pricePrecision) := by
        simp [_drawCrossHairLabel.text, habs, hc]
      rw [htext] at h
      refine ⟨self._chartStore.pricePrecision, false, _, _, _, _, _, _, _, _, _, _, _, h, ?_, ?_⟩
      · intro _; rfl
      · intro hf; cases hf
    | false =>
      obtain ⟨_, hub, hatt⟩ :=
        precision_fold (self._chartStore.technicalIndicatorStore self._paneId) (0, false)
      have htext : _drawCrossHairLabel.text self
          (self._yAxis.convertFromPixel self._chartStore.crosshairStore.y) =
          (if ((self._chartStore.technicalIndicatorStore self._paneId).foldl
              _drawCrossHairLabel.step (0, false)).2 then
             Text.formatBigNumber (Text.formatPrecision
               (self._yAxis.convertFromPixel self._chartStore.crosshairStore.y)
               ((self._chartStore.technicalIndicatorStore self._paneId).foldl
                 _drawCrossHairLabel.step (0, false)).1)
           else
             Text.formatPrecision
               (self._yAxis.convertFromPixel self._chartStore.crosshairStore.y)
               ((self._chartStore.technicalIndicatorStore self._paneId).foldl
                 _drawCrossHairLabel.step (0, false)).1) := by
        simp [_drawCrossHairLabel.text, habs, hc]
      rw [htext] at h
      refine ⟨((self._chartStore.technicalIndicatorStore self._paneId).foldl
          _drawCrossHairLabel.step (0, false)).1,
        ((self._chartStore.technicalIndicatorStore self._paneId).foldl
          _drawCrossHairLabel.step (0, false)).2, _, _, _, _, _, _, _, _, _, _, _, h, ?_, ?_⟩
      · intro hf; cases hf
      · intro _
        refine ⟨hub, ?_, ?_⟩
        · intro hnil
          rw [hnil]; rfl
        · intro hne
          rcases hatt with hz | hatt
          · obtain ⟨t, ht⟩ := List.exists_mem_of_ne_nil _ hne
            refine ⟨t, ht, ?_⟩
            have hle := hub t ht
            rw [hz] at hle ⊢
            exact Nat.le_zero.mp hle
          · exact hatt

theorem crosshair_label_precision_witness :
    _drawCrossHairLabel (sampleView ⟨none, none⟩) ≠ [] ∧
      (sampleView ⟨none, none⟩)._yAxis.yAxisType ≠ YAxisType.percentage ∧
      ∃ (precision : Nat) (big : Bool) (bg bc : String) (bs x y w h r : JSNum) (color : String)
          (tx ty : JSNum),
        _drawCrossHairLabel (sampleView ⟨none, none⟩) =
            [Cmd.renderStrokeFillRoundRect bg bc bs x y w h r,
             Cmd.renderText color tx ty
               (if big then
                  Text.formatBigNumber (Text.formatPrecision
                    ((sampleView ⟨none, none⟩)._yAxis.convertFromPixel
                      (sampleView ⟨none, none⟩)._chartStore.crosshairStore.y) precision)
                else
                  Text.formatPrecision
                    ((sampleView ⟨none, none⟩)._yAxis.convertFromPixel
                      (sampleView ⟨none, none⟩)._chartStore.crosshairStore.y) precision)] ∧
          ((sampleView ⟨none, none⟩)._yAxis.isCandleYAxis = true →
            precision = (sampleView ⟨none, none⟩)._chartStore.pricePrecision) ∧
          ((sampleView ⟨none, none⟩)._yAxis.isCandleYAxis = false →
            (∀ t ∈ (sampleView ⟨none, none⟩)._chartStore.technicalIndicatorStore
                (sampleView ⟨none, none⟩)._paneId, t.precision ≤ precision) ∧
              ((sampleView ⟨none, none⟩)._chartStore.technicalIndicatorStore
                (sampleView ⟨none, none⟩)._paneId = [] → precision = 0) ∧
              ((sampleView ⟨none, none⟩)._chartStore.technicalIndicatorStore
                (sampleView ⟨none, none⟩)._paneId ≠ [] →
                ∃ t ∈ (sampleView ⟨none, none⟩)._chartStore.technicalIndicatorStore
                  (sampleView ⟨none, none⟩)._paneId, t.precision = precision)) :=
  ⟨by rw [Ne, drawCrossHairLabel_eq_nil_iff]; simp [sampleView, sampleStore, sampleStyleOptions,
        sampleTextOptions],
    by simp [sampleView, sampleAxis],
    crosshair_label_precision (sampleView ⟨none, none⟩)
      (by rw [Ne, drawCrossHairLabel_eq_nil_iff]; simp [sampleView, sampleStore,
        sampleStyleOptions, sampleTextOptions])
      (by simp [sampleView, sampleAxis])⟩

/-- C10, as the claim states it, fails: with an empty visible data list and a data list of
one entry, the crosshair on this pane and the three flags on, the label is drawn. -/
theorem label_drawn_with_empty_visible_data :
    (sampleView ⟨none, none⟩)._chartStore.visibleDataList = [] ∧
      (sampleView ⟨none, none⟩)._chartStore.dataList.length = 1 ∧
      (_drawCrossHairLabel (sampleView ⟨none, none⟩)).length = 2 ∧
      _drawCrossHairLabel (sampleView ⟨none, none⟩) ≠ [] := by
  have hne : _drawCrossHairLabel (sampleView ⟨none, none⟩) ≠ [] := by
    rw [Ne, drawCrossHairLabel_eq_nil_iff]
    simp [sampleView, sampleStore, sampleStyleOptions, sampleTextOptions]
  refine ⟨rfl, rfl, ?_, hne⟩
  rcases drawCrossHairLabel_cases (sampleView ⟨none, none⟩) with h | h
  · exact absurd h hne
  · rw [h]; rfl

/-- C10, amended: `_drawCrossHairLabel` draws nothing if the crosshair's `paneId` differs
from the view's, or the store's data list `dataList()` is empty, or one of the flags
`crosshair.show`, `crosshair.horizontal.show`, `crosshair.horizontal.text.show` is false; when
none of these holds it draws exactly one box and then exactly one text. -/
theorem crosshair_label_guards (self : View) :
    ((self._chartStore.crosshairStore.paneId ≠ some self._paneId ∨
        self._chartStore.dataList = [] ∨
        self._chartStore.styleOptions.crosshair.show_ = false ∨
        self._chartStore.styleOptions.crosshair.horizontal.show_ = false ∨
        self._chartStore.styleOptions.crosshair.horizontal.text.show_ = false) →
      _drawCrossHairLabel self = []) ∧
    (¬(self._chartStore.crosshairStore.paneId ≠ some self._paneId ∨
        self._chartStore.dataList = [] ∨
        self._chartStore.styleOptions.crosshair.show_ = false ∨
        self._chartStore.styleOptions.crosshair.horizontal.show_ = false ∨
        self._chartStore.styleOptions.crosshair.horizontal.text.show_ = false) →
      ∃ bg bc bs x y w h r color tx ty text,
        _drawCrossHairLabel self =
          [Cmd.renderStrokeFillRoundRect bg bc bs x y w h r,
           Cmd.renderText color tx ty text]) := by
  constructor
  · intro h
    exact (drawCrossHairLabel_eq_nil_iff self).mpr h
  · intro h
    rcases drawCrossHairLabel_cases self with h0 | h0
    · exact absurd ((drawCrossHairLabel_eq_nil_iff self).mp h0) h
    · exact ⟨_, _, _, _, _, _, _, _, _, _, _, _, h0⟩

theorem crosshair_label_guards_witness :
    (sampleView ⟨none, none⟩)._chartStore.dataList ≠ [] ∧
      ∃ bg bc bs x y w h r color tx ty text,
        _drawCrossHairLabel (sampleView ⟨none, none⟩) =
          [Cmd.renderStrokeFillRoundRect bg bc bs x y w h r,
           Cmd.renderText color tx ty text] :=
  ⟨by simp [sampleView, sampleStore],
    (crosshair_label_guards (sampleView ⟨none, none⟩)).2
      (by simp [sampleView, sampleStore, sampleStyleOptions, sampleTextOptions])⟩

end YAxisOverlayView
